import Mathlib

/-
Verification of the bank-vaults Vault lifecycle core (internal/vault,
operator_client.go) against its natural-language specification.

Modelling conventions, shared by all definitions below:
- Go byte slices AND Go strings flowing through data paths (unseal shares,
  tokens, base64 text, OTPs) are `List Nat`, each element a byte value.
  Byte-level operations (XOR) never overflow a byte, so no masking is needed.
- Keystore key NAMES (built from string literals and decimal indices) are
  Lean `String`.
- Fallible Go calls return `Except String` values; Go panics (index out of
  range) are a distinguished `GoRes.panic` outcome.
- External collaborators (the Vault HTTP API, the keystore backend, the
  Keybase endpoint) are oracles supplied in environment structures; stateful
  call sequences are lists of per-iteration oracle outcomes, and a loop that
  outruns its oracle list is reported as `none` (divergence).
-/

/-- Outcome of a Go function that can return a value, an error, or panic. -/
inductive GoRes (α : Type) where
  | ok : α → GoRes α
  | err : String → GoRes α
  | panic : GoRes α
deriving Repr

/-- Outcome of a keystore Get: a value, a NotFound signal, or another backend
error (`errOut`). Mirrors the Go `KVService.Get` + `notFoundError` duck-typed
interface. -/
inductive GetOut where
  | found : List Nat → GetOut
  | notFound : GetOut
  | errOut : String → GetOut
deriving Repr, DecidableEq

/-- Association-list lookup on string-keyed stores (first match wins, so a
cons at the head models an overwriting Set). -/
def kvLookup (l : List (String × List Nat)) (k : String) : Option (List Nat) :=
  match l with
  | [] => none
  | (k2, v) :: rest => if k2 = k then some v else kvLookup rest k

/-- Keystore state: `base` is the pre-existing backend content (an oracle),
`setErr` is the backend write-failure oracle, `writes` the overlay of
successful Set calls made during the modelled operation (most recent first),
and `attempts` the trace of every Set call made (successful or not). -/
structure St where
  base : String → GetOut
  setErr : String → Option String
  writes : List (String × List Nat)
  attempts : List String

/-- KVService.Get over the modelled state: writes overlay the backend. -/
def St.get (s : St) (k : String) : GetOut :=
  match kvLookup s.writes k with
  | some v => GetOut.found v
  | none => s.base k

/-- KVService.Set: records the attempt, and on backend success prepends the
pair to the overlay; on backend failure returns the error with the store
content unchanged. -/
def St.set (s : St) (k : String) (v : List Nat) : St × Option String :=
  match s.setErr k with
  | some e => ({ s with attempts := s.attempts ++ [k] }, some e)
  | none => ({ s with writes := (k, v) :: s.writes, attempts := s.attempts ++ [k] }, none)

/-- Go `keyUnsealForID`: fmt.Sprint("vault-unseal-", i). -/
def keyUnsealForID (i : Nat) : String :=
  "vault-unseal-" ++ Nat.repr i

/-- Go `keyRecoveryForID`: fmt.Sprint("vault-recovery-", i). -/
def keyRecoveryForID (i : Nat) : String :=
  "vault-recovery-" ++ Nat.repr i

/-- UTF-8 bytes of a Lean string, modelling Go `[]byte(stringLiteral)`. -/
def strBytes (s : String) : List Nat :=
  s.toUTF8.toList.map (fun b => b.toNat)

/-- Value of one base64 alphabet character (standard alphabet), none for
characters outside the alphabet (including the pad). -/
def b64Val (c : Nat) : Option Nat :=
  if 65 ≤ c ∧ c ≤ 90 then some (c - 65)
  else if 97 ≤ c ∧ c ≤ 122 then some (c - 97 + 26)
  else if 48 ≤ c ∧ c ≤ 57 then some (c - 48 + 52)
  else if c = 43 then some 62
  else if c = 47 then some 63
  else none

/-- Decode a newline-stripped standard-base64 byte string, consuming one
padded or unpadded quad per step, as Go base64.StdEncoding does (lenient
about non-zero trailing bits, strict about pad placement and length). -/
def b64Quads : List Nat → Except String (List Nat)
  | [] => Except.ok []
  | a :: b :: c :: d :: rest =>
    match b64Val a, b64Val b with
    | some va, some vb =>
      if d = 61 then
        if rest ≠ [] then Except.error ("illegal base64 data: pad before end")
        else if c = 61 then Except.ok [va * 4 + vb / 16]
        else
          match b64Val c with
          | some vc => Except.ok [va * 4 + vb / 16, (vb % 16) * 16 + vc / 4]
          | none => Except.error ("illegal base64 data: bad character")
      else
        match b64Val c, b64Val d with
        | some vc, some vd =>
          match b64Quads rest with
          | Except.ok tail =>
            Except.ok ([va * 4 + vb / 16, (vb % 16) * 16 + vc / 4, (vc % 4) * 64 + vd] ++ tail)
          | Except.error e => Except.error e
        | _, _ => Except.error ("illegal base64 data: bad character")
    | _, _ => Except.error ("illegal base64 data: bad character")
  | _ => Except.error ("illegal base64 data: bad length")

/-- Go base64.StdEncoding.DecodeString on a Go string given as bytes:
newline bytes are ignored, then whole quads are decoded. -/
def b64StdDecode (s : List Nat) : Except String (List Nat) :=
  b64Quads (s.filter (fun c => c ≠ 10 ∧ c ≠ 13))

/-- Decode an unpadded (raw) standard-base64 tail of length 0, 2 or 3,
or a full quad followed by more input. -/
def b64RawQuads : List Nat → Except String (List Nat)
  | [] => Except.ok []
  | [_] => Except.error ("illegal base64 data: bad length")
  | [a, b] =>
    match b64Val a, b64Val b with
    | some va, some vb => Except.ok [va * 4 + vb / 16]
    | _, _ => Except.error ("illegal base64 data: bad character")
  | [a, b, c] =>
    match b64Val a, b64Val b, b64Val c with
    | some va, some vb, some vc => Except.ok [va * 4 + vb / 16, (vb % 16) * 16 + vc / 4]
    | _, _, _ => Except.error ("illegal base64 data: bad character")
  | a :: b :: c :: d :: rest =>
    match b64Val a, b64Val b, b64Val c, b64Val d with
    | some va, some vb, some vc, some vd =>
      match b64RawQuads rest with
      | Except.ok tail =>
        Except.ok ([va * 4 + vb / 16, (vb % 16) * 16 + vc / 4, (vc % 4) * 64 + vd] ++ tail)
      | Except.error e => Except.error e
    | _, _, _, _ => Except.error ("illegal base64 data: bad character")

/-- Go base64.RawStdEncoding.DecodeString (no padding accepted). -/
def b64RawDecode (s : List Nat) : Except String (List Nat) :=
  b64RawQuads (s.filter (fun c => c ≠ 10 ∧ c ≠ 13))

/-- Standard-base64 alphabet character for a 6-bit value. -/
def b64Chr (n : Nat) : Nat :=
  if n < 26 then 65 + n
  else if n < 52 then 97 + (n - 26)
  else if n < 62 then 48 + (n - 52)
  else if n = 62 then 43
  else 47

/-- Go base64.StdEncoding.EncodeToString, producing the encoded bytes. -/
def b64Encode : List Nat → List Nat
  | [] => []
  | [x] => [b64Chr (x / 4), b64Chr ((x % 4) * 16), 61, 61]
  | [x, y] => [b64Chr (x / 4), b64Chr ((x % 4) * 16 + y / 16), b64Chr ((y % 16) * 4), 61]
  | x :: y :: z :: rest =>
    [b64Chr (x / 4), b64Chr ((x % 4) * 16 + y / 16),
     b64Chr ((y % 16) * 4 + z / 64), b64Chr (z % 64)] ++ b64Encode rest

/-- Go `XORBytes` (operator_client.go): error when lengths differ, otherwise
the byte-wise XOR. -/
def XORBytes (a b : List Nat) : Except String (List Nat) :=
  if a.length ≠ b.length then
    Except.error ("length of byte slices is not equivalent")
  else
    Except.ok (List.zipWith Nat.xor a b)

/-- Go `XORBase64` (operator_client.go): standard-base64 decode both inputs,
fail when either decode fails or yields empty bytes, then delegate to
XORBytes. -/
def XORBase64 (a b : List Nat) : Except String (List Nat) :=
  match b64StdDecode a with
  | Except.error _ => Except.error ("error decoding first base64 value")
  | Except.ok aBytes =>
    if aBytes.length = 0 then Except.error ("decoded first base64 value is nil or empty")
    else
      match b64StdDecode b with
      | Except.error _ => Except.error ("error decoding second base64 value")
      | Except.ok bBytes =>
        if bBytes.length = 0 then Except.error ("decoded second base64 value is nil or empty")
        else XORBytes aBytes bBytes

/-- Lowercase hex digit byte for a value below 16. -/
def hexDigit (n : Nat) : Nat :=
  if n < 10 then 48 + n else 97 + (n - 10)

/-- Two lowercase hex digit bytes of one byte. -/
def hexByte (b : Nat) : List Nat :=
  [hexDigit (b / 16), hexDigit (b % 16)]

/-- go-uuid FormatUUID: 16 bytes rendered as the 8-4-4-4-12 lowercase hex
form, error on any other input length. -/
def formatUUID (buf : List Nat) : Except String (List Nat) :=
  if buf.length ≠ 16 then Except.error ("wrong length byte slice provided")
  else
    Except.ok
      (((buf.take 4).map hexByte).flatten ++ [45] ++
       (((buf.drop 4).take 2).map hexByte).flatten ++ [45] ++
       (((buf.drop 6).take 2).map hexByte).flatten ++ [45] ++
       (((buf.drop 8).take 2).map hexByte).flatten ++ [45] ++
       ((buf.drop 10).map hexByte).flatten)

/-- ASCII whitespace test used by TrimSpace over the (always ASCII) UUID
string. -/
def isSpaceByte (b : Nat) : Bool :=
  b = 32 || (9 ≤ b && b ≤ 13)

/-- Go strings.TrimSpace restricted to ASCII whitespace, which is the only
kind the trimmed inputs here can contain. -/
def trimSpaceBytes (l : List Nat) : List Nat :=
  ((l.dropWhile isSpaceByte).reverse.dropWhile isSpaceByte).reverse

/-- Go `keyStoreNotFound` (operator_client.go): Get, normalize NotFound to a
Boolean; a plain success is (false, nil) and any other error is returned
as (false, err). -/
def keyStoreNotFound (s : St) (k : String) : Bool × Option String :=
  match s.get k with
  | GetOut.found _ => (false, none)
  | GetOut.notFound => (true, none)
  | GetOut.errOut e => (false, some e)

/-- Go `keyStoreSet` (operator_client.go): absence-checked Set; an existing
value or a non-NotFound Get error is fatal. -/
def keyStoreSet (s : St) (k : String) (v : List Nat) : St × Option String :=
  match keyStoreNotFound s k with
  | (true, _) => s.set k v
  | (false, none) => (s, some ("error setting key " ++ k ++ ": it already exists"))
  | (false, some e) => (s, some ("error setting key " ++ k ++ ": " ++ e))

/-- Go `keyPGPSet` (operator_client.go): base64-decode the value once, then
a plain (overwriting) KVService.Set of the decoded bytes. -/
def keyPGPSet (s : St) (k : String) (v : List Nat) : St × Option String :=
  match b64StdDecode v with
  | Except.error e => (s, some ("error setting data: " ++ e))
  | Except.ok pgpText => s.set k pgpText

/-- Go `kvTester.Test` (operator_client.go): Get the probe key; a
non-NotFound error aborts; otherwise (value present or NotFound) Set the
key to its own name as bytes. -/
def kvTesterTest (s : St) (k : String) : St × Option String :=
  match s.get k with
  | GetOut.errOut e => (s, some e)
  | _ => s.set k (strBytes k)

/-- Response of one Vault /sys/unseal call: the Sealed flag and the share
Progress counter. -/
structure UnsealResp where
  sealed : Bool
  progress : Nat
deriving Repr, DecidableEq

/-- Environment of one iteration of the Unseal loop: the keystore Get of
vault-unseal-i, and the Vault unseal call outcome. -/
structure UnsealStep where
  getRes : Except String (List Nat)
  unsealRes : Except String UnsealResp
deriving Repr

/-- Error message for an invalid unseal key (Progress reset to 0). -/
def unsealBadKeyMsg : String :=
  "failed to unseal vault, are you using the right unseal keys?"

/-- Go `Unseal` (operator_client.go): submit stored shares in index order;
return success when a response is unsealed, fail hard when Progress is 0,
otherwise continue with the next share. The returned Nat counts unseal
requests actually submitted; `none` means the oracle list ran out with the
loop still running. -/
def unsealLoop : List UnsealStep → Option (Nat × Except String Unit)
  | [] => none
  | s :: rest =>
    match s.getRes with
    | Except.error e => some (0, Except.error ("unable to get key: " ++ e))
    | Except.ok _ =>
      match s.unsealRes with
      | Except.error _ => some (1, Except.error ("fail to send unseal request to vault"))
      | Except.ok r =>
        if r.sealed = false then some (1, Except.ok ())
        else if r.progress = 0 then some (1, Except.error unsealBadKeyMsg)
        else
          match unsealLoop rest with
          | none => none
          | some (c, o) => some (c + 1, o)

/-- One Unseal iteration neither terminates nor fails: Get succeeded, the
unseal call succeeded, and Vault is still sealed with nonzero progress. -/
def unsealContinues (s : UnsealStep) : Bool :=
  match s.getRes, s.unsealRes with
  | Except.ok _, Except.ok r => r.sealed && r.progress ≠ 0
  | _, _ => false

/-- One Unseal iteration succeeds: both calls succeed and the response
reports Sealed=false. -/
def unsealStepOk (s : UnsealStep) : Bool :=
  match s.getRes, s.unsealRes with
  | Except.ok _, Except.ok r => r.sealed = false
  | _, _ => false

/-- One Unseal iteration hits the invalid-key condition: both calls succeed,
still sealed, Progress=0. -/
def unsealStepBadKey (s : UnsealStep) : Bool :=
  match s.getRes, s.unsealRes with
  | Except.ok _, Except.ok r => r.sealed && r.progress = 0
  | _, _ => false

/-- Response of one Vault rekey update call: the Complete flag and the
per-recipient base64 key list (present on the completing response). -/
structure RekeyUpdResp where
  complete : Bool
  keysB64 : List (List Nat)
deriving Repr

/-- Environment of one iteration of sendRekeyUpdates: the keystore Get of
vault-unseal-i and the RekeyUpdate call outcome. -/
structure RekeyStep where
  getRes : Except String (List Nat)
  updRes : Except String RekeyUpdResp
deriving Repr

/-- Go `sendRekeyUpdates` (operator_client.go): submit stored shares under
the nonce until a response is Complete. A Get failure returns immediately;
only a RekeyUpdate failure triggers the RekeyCancel attempt. The Nat counts
RekeyCancel attempts made. -/
def sendRekeyUpdates : List RekeyStep → Option (Nat × Except String RekeyUpdResp)
  | [] => none
  | s :: rest =>
    match s.getRes with
    | Except.error e => some (0, Except.error ("unable to get key: " ++ e))
    | Except.ok _ =>
      match s.updRes with
      | Except.error _ => some (1, Except.error ("failed to send rekey update request to vault"))
      | Except.ok r =>
        if r.complete then some (0, Except.ok r)
        else sendRekeyUpdates rest

/-- One sendRekeyUpdates iteration continues: both calls succeed and the
response is not Complete. -/
def rekeyContinues (s : RekeyStep) : Bool :=
  match s.getRes, s.updRes with
  | Except.ok _, Except.ok r => !r.complete
  | _, _ => false

/-- Per-recipient rekey share name: `<name>-vault-unseal-<i>`. -/
def rekeyKeyID (name : String) (i : Nat) : String :=
  name ++ "-" ++ keyUnsealForID i

/-- Loop body of Go `finishRekey` (operator_client.go): for each returned
base64 key at position i, index the recipient list at i WITHOUT a bounds
check (a Go index-out-of-range panic when it is too short) and keyPGPSet
the decoded bytes under the recipient-tagged share name. -/
def finishRekeyLoop (names : List String) : List (List Nat) → Nat → St → GoRes St
  | [], _, s => GoRes.ok s
  | k :: rest, i, s =>
    match names[i]? with
    | none => GoRes.panic
    | some name =>
      match keyPGPSet s (rekeyKeyID name i) k with
      | (_, some e) => GoRes.err ("error storing unseal key: " ++ e)
      | (s1, none) => finishRekeyLoop names rest (i + 1) s1

/-- Go `finishRekey` (operator_client.go). -/
def finishRekey (s : St) (keysB64 : List (List Nat)) (pgpKeyNames : List String) : GoRes St :=
  finishRekeyLoop pgpKeyNames keysB64 0 s

/-- Vault rekey status response fields used by Rekey. -/
structure RekeyStatusResp where
  started : Bool
  nonce : String
deriving Repr

/-- Environment of one Rekey invocation: the status, Keybase fetch and
RekeyInit oracles, the per-iteration update-loop oracles, and the keystore
used by finishRekey. -/
structure RekeyEnv where
  pgpKeys : List String
  statusRes : Except String RekeyStatusResp
  fetchRes : Except String (List (List Nat))
  initRes : Except String String
  steps : List RekeyStep
  st0 : St

/-- Result of one Rekey invocation: the Go return value (or panic), the
number of RekeyCancel attempts made, and the final keystore state. -/
structure RekeyOut where
  res : GoRes Unit
  cancels : Nat
  st : St

/-- Go `initializeRekey` (operator_client.go): RekeyInit, rejecting an empty
nonce. -/
def rekeyInitPhase (initRes : Except String String) : Except String String :=
  match initRes with
  | Except.error e => Except.error ("unable to start rekey init process: " ++ e)
  | Except.ok n =>
    if n = "" then Except.error ("failed to init rekey operation: empty nonce returned. Vault auth token may be incorrect")
    else Except.ok n

/-- Go `Rekey` (operator_client.go): reject an empty recipient list, check
rekey status, fetch Keybase keys, initialize or adopt the nonce, drive
sendRekeyUpdates, then persist via finishRekey. The defer that removes
recipient strings as filesystem paths is a side effect outside this model. -/
def Rekey (env : RekeyEnv) : Option RekeyOut :=
  if env.pgpKeys = [] then
    some ⟨GoRes.err ("no PGP keys provided for rekey operation"), 0, env.st0⟩
  else
    match env.statusRes with
    | Except.error e => some ⟨GoRes.err ("unable to check rekey status: " ++ e), 0, env.st0⟩
    | Except.ok status =>
      match env.fetchRes with
      | Except.error e => some ⟨GoRes.err ("unable to fetch Keybase PGP keys: " ++ e), 0, env.st0⟩
      | Except.ok _ =>
        match (if status.started then Except.ok status.nonce else rekeyInitPhase env.initRes) with
        | Except.error e => some ⟨GoRes.err e, 0, env.st0⟩
        | Except.ok _ =>
          match sendRekeyUpdates env.steps with
          | none => none
          | some (c, Except.error e) => some ⟨GoRes.err e, c, env.st0⟩
          | some (c, Except.ok resp) =>
            match finishRekey env.st0 resp.keysB64 env.pgpKeys with
            | GoRes.ok s1 => some ⟨GoRes.ok (), c, s1⟩
            | GoRes.err e => some ⟨GoRes.err e, c, env.st0⟩
            | GoRes.panic => some ⟨GoRes.panic, c, env.st0⟩

/-- Rekey reaches the update-submission loop: recipients nonempty, status
and fetch succeeded, and the nonce was either adopted from an in-progress
rekey or obtained from a successful RekeyInit with a nonempty nonce. -/
def rekeyReachesUpdates (env : RekeyEnv) : Bool :=
  !(env.pgpKeys = []) &&
  (match env.statusRes with
   | Except.error _ => false
   | Except.ok status =>
     (match env.fetchRes with
      | Except.error _ => false
      | Except.ok _ =>
        status.started ||
        (match env.initRes with
         | Except.error _ => false
         | Except.ok n => !(n = ""))))

/-- Operator configuration (Config in operator_client.go); InitRootToken is
the Go string as bytes, empty meaning unset. -/
structure Conf where
  secretShares : Nat
  secretThreshold : Nat
  initRootToken : List Nat
  storeRootToken : Bool
  preFlightChecks : Bool

/-- Vault /sys/init response fields used by Init. -/
structure InitResp where
  keys : List (List Nat)
  recoveryKeys : List (List Nat)
  rootToken : List Nat
deriving Repr

/-- Vault-client actions Init performs, recorded in call order. -/
inductive Act where
  | vaultInit
  | setTokenAct : List Nat → Act
  | createOrphan : List Nat → Act
  | revokeTok : List Nat → Act
deriving Repr, DecidableEq

/-- Environment of one Init invocation. -/
structure InitEnv where
  cfg : Conf
  st0 : St
  initStatus : Except String Bool
  sealStatus : Except String Bool
  initCall : Except String InitResp
  polls : List (Except String Bool)
  orphanRes : Except String Unit
  revokeRes : Except String Unit

/-- Result of one Init invocation: the Go return value, the final keystore
state, the Vault-client action trace, the local rootToken variable at
return, and the RootToken the init call returned. -/
structure InitOut where
  res : Except String Unit
  st : St
  trace : List Act
  finalRoot : List Nat
  retRoot : List Nat

/-- The pre-init existence probe loop of Go `Init`: for each reserved key,
keyStoreNotFound; the guard notFound AND err is unsatisfiable (dead code in
the source, kept verbatim), so only a plain success trips the
already-exists failure and other Get errors fall through to the next key. -/
def probeKeys (s : St) : List String → Option String
  | [] => none
  | k :: rest =>
    match keyStoreNotFound s k with
    | (nf, e) =>
      if nf && e.isSome then some ("error before init: checking key " ++ k ++ " failed")
      else if !nf && e.isNone then some ("error before init: value for key " ++ k ++ " already exists")
      else probeKeys s rest

/-- The reserved keys Init probes: vault-root plus vault-unseal-0 through
vault-unseal-SecretShares, an INCLUSIVE bound (SecretShares+1 names). -/
def probeList (shares : Nat) : List String :=
  "vault-root" :: (List.range (shares + 1)).map keyUnsealForID

/-- The share-storing loops of Go `Init`: keyStoreSet each returned key
under mk i, stopping at the first failure. -/
def storeShareKeys (mk : Nat → String) : List (List Nat) → Nat → St → St × Option String
  | [], _, s => (s, none)
  | v :: rest, i, s =>
    match keyStoreSet s (mk i) v with
    | (s1, some e) => (s1, some e)
    | (s1, none) => storeShareKeys mk rest (i + 1) s1

/-- The wait-for-unseal poll loop of Go `Init`: Sealed() returns false both
on an unsealed report and on a transport error (Go zero value), and the
loop breaks on either; it only continues while polls report sealed. -/
def waitUnsealed : List (Except String Bool) → Option Unit
  | [] => none
  | Except.ok true :: rest => waitUnsealed rest
  | _ :: _ => some ()

/-- The root-token storing tail of Go `Init`: an INDEPENDENT if (not an
else-if), storing the returned root token whenever StoreRootToken is set. -/
def storeTail (env : InitEnv) (retRoot : List Nat) (s : St) (tr : List Act) (rootVar : List Nat) : Option InitOut :=
  if env.cfg.storeRootToken then
    match keyStoreSet s ("vault-root") retRoot with
    | (s4, some e) => some ⟨Except.error ("error storing root token: " ++ e), s4, tr, rootVar, retRoot⟩
    | (s4, none) => some ⟨Except.ok (), s4, tr, rootVar, retRoot⟩
  else some ⟨Except.ok (), s, tr, rootVar, retRoot⟩

/-- The root-token handling tail of Go `Init`: when InitRootToken is set,
wait for unseal, adopt the returned root as client token, create the orphan
root token with the configured ID, revoke the returned root, and make
InitRootToken the effective root; then in all cases run storeTail. -/
def rootTail (env : InitEnv) (retRoot : List Nat) (s : St) (tr : List Act) : Option InitOut :=
  if env.cfg.initRootToken = [] then
    storeTail env retRoot s tr retRoot
  else
    match waitUnsealed env.polls with
    | none => none
    | some () =>
      match env.orphanRes with
      | Except.error e =>
        some ⟨Except.error ("unable to setup requested root token: " ++ e), s,
          tr ++ [Act.setTokenAct retRoot, Act.createOrphan env.cfg.initRootToken], retRoot, retRoot⟩
      | Except.ok () =>
        match env.revokeRes with
        | Except.error e =>
          some ⟨Except.error ("unable to revoke temporary root token: " ++ e), s,
            tr ++ [Act.setTokenAct retRoot, Act.createOrphan env.cfg.initRootToken, Act.revokeTok retRoot],
            retRoot, retRoot⟩
        | Except.ok () =>
          storeTail env retRoot s
            (tr ++ [Act.setTokenAct retRoot, Act.createOrphan env.cfg.initRootToken, Act.revokeTok retRoot])
            env.cfg.initRootToken

/-- Go `Init` (operator_client.go): no-op when already initialized;
otherwise optional pre-flight keystore test, reserved-key probing, seal
status, Vault init call, share storing, then root-token handling. -/
def Init (env : InitEnv) : Option InitOut :=
  match env.initStatus with
  | Except.error e => some ⟨Except.error ("error testing if vault is initialized: " ++ e), env.st0, [], [], []⟩
  | Except.ok true => some ⟨Except.ok (), env.st0, [], [], []⟩
  | Except.ok false =>
    match (if env.cfg.preFlightChecks then kvTesterTest env.st0 ("vault-test") else (env.st0, none)) with
    | (s1, some e) => some ⟨Except.error ("error testing keystore before init: " ++ e), s1, [], [], []⟩
    | (s1, none) =>
      match probeKeys s1 (probeList env.cfg.secretShares) with
      | some e => some ⟨Except.error e, s1, [], [], []⟩
      | none =>
        match env.sealStatus with
        | Except.error e => some ⟨Except.error ("error getting seal status: " ++ e), s1, [], [], []⟩
        | Except.ok _recoverySeal =>
          match env.initCall with
          | Except.error e => some ⟨Except.error ("error initializing vault: " ++ e), s1, [Act.vaultInit], [], []⟩
          | Except.ok resp =>
            match storeShareKeys keyUnsealForID resp.keys 0 s1 with
            | (s2, some e) => some ⟨Except.error ("error storing unseal key: " ++ e), s2, [Act.vaultInit], [], resp.rootToken⟩
            | (s2, none) =>
              match storeShareKeys keyRecoveryForID resp.recoveryKeys 0 s2 with
              | (s3, some e) => some ⟨Except.error ("error storing recovery key: " ++ e), s3, [Act.vaultInit], [], resp.rootToken⟩
              | (s3, none) => rootTail env resp.rootToken s3 [Act.vaultInit]

/-- Vault generate-root init response fields used by Configure. -/
structure GenRootInitResp where
  otp : List Nat
  nonce : String
  otpLength : Nat
  required : Nat

/-- Vault generate-root update response fields used by Configure. -/
structure GenRootUpdResp where
  complete : Bool
  encodedRootToken : List Nat

/-- Environment of one generate-root loop iteration: the keystore Get of
the i-th unseal or recovery share and the GenerateRootUpdate outcome. -/
structure GenRootStep where
  getRes : Except String (List Nat)
  updRes : Except String GenRootUpdResp

/-- Environment of one Configure invocation. `token0` is the Vault client
token before the call; the seven sub-configurator outcomes come last, in
their fixed source order. -/
structure CfgEnv where
  storeRootToken : Bool
  token0 : List Nat
  getRoot : Except String (List Nat)
  genCancel : Option String
  genInit : Except String GenRootInitResp
  sealStatus : Except String Bool
  steps : List GenRootStep
  copyErr : Option String
  newDecoderErr : Option String
  decodeErr : Option String
  stageErrs : List (Option String)

/-- Outcome of the generate-root submission loop inside Configure. -/
inductive AcqLoopOut where
  | errExit : String → AcqLoopOut
  | gotToken : List Nat → AcqLoopOut
  | fellThrough : AcqLoopOut

/-- The generate-root loop of Go `Configure`: at most Required iterations;
on a Complete response decode the OTP-masked encoded root token (legacy
XOR-of-base64 + UUID formatting when OTPLength is 0, raw-base64 + XOR
otherwise) and adopt it; errors exit before the token-clearing defers are
registered. Exhausting Required without Complete falls through with no
token change. -/
def genRootLoop (otp : List Nat) (otpLength : Nat) : Nat → List GenRootStep → Option AcqLoopOut
  | 0, _ => some AcqLoopOut.fellThrough
  | _ + 1, [] => none
  | rem + 1, st :: rest =>
    match st.getRes with
    | Except.error e => some (AcqLoopOut.errExit ("unable to get key: " ++ e))
    | Except.ok _ =>
      match st.updRes with
      | Except.error e => some (AcqLoopOut.errExit ("unable to update generate-root token process: " ++ e))
      | Except.ok res =>
        if res.complete then
          if otpLength = 0 then
            match XORBase64 res.encodedRootToken otp with
            | Except.error e => some (AcqLoopOut.errExit ("error xoring encoded root token: " ++ e))
            | Except.ok tokenBytes =>
              match formatUUID tokenBytes with
              | Except.error e => some (AcqLoopOut.errExit ("error formatting base64 encoded root token: " ++ e))
              | Except.ok uuidToken => some (AcqLoopOut.gotToken (trimSpaceBytes uuidToken))
          else
            match b64RawDecode res.encodedRootToken with
            | Except.error e => some (AcqLoopOut.errExit ("error decoding base64 encoded root token: " ++ e))
            | Except.ok tb =>
              match XORBytes tb otp with
              | Except.error e => some (AcqLoopOut.errExit ("error xoring encoded root token: " ++ e))
              | Except.ok tokenBytes => some (AcqLoopOut.gotToken tokenBytes)
        else genRootLoop otp otpLength rem rest

/-- The root-token acquisition phase of Go `Configure` (everything before
the deferred cleanup is registered). On success it yields the client token
value and the outer rootToken buffer; in the StoreRootToken branch the Get
result lands in a SHADOWED local, so the outer buffer stays nil there.
Every error here returns before the token-clearing defers exist. -/
def acquireRoot (env : CfgEnv) : Option (Except String (List Nat × Option (List Nat))) :=
  if env.storeRootToken then
    match env.getRoot with
    | Except.error e => some (Except.error ("unable to get key vault-root: " ++ e))
    | Except.ok rt => some (Except.ok (rt, none))
  else
    match env.genCancel with
    | some e => some (Except.error ("unable to cancel generate root token process: " ++ e))
    | none =>
      match env.genInit with
      | Except.error e => some (Except.error ("unable to initiate generate-root token process: " ++ e))
      | Except.ok r =>
        match env.sealStatus with
        | Except.error e => some (Except.error ("error getting seal status: " ++ e))
        | Except.ok _recoverySeal =>
          match genRootLoop r.otp r.otpLength r.required env.steps with
          | none => none
          | some (AcqLoopOut.errExit e) => some (Except.error e)
          | some (AcqLoopOut.gotToken t) => some (Except.ok (t, some t))
          | some AcqLoopOut.fellThrough => some (Except.ok (env.token0, none))

/-- The seven sub-configurators of Go `Configure`, run in order, first
error aborting the rest. -/
def runStages : List (Option String) → Except String Unit
  | [] => Except.ok ()
  | none :: rest => runStages rest
  | some e :: _ => Except.error e

/-- The declarative-configuration phase of Go `Configure`: deep copy,
decoder construction, strict decode, then the sub-configurators. -/
def configPhase (env : CfgEnv) : Except String Unit :=
  match env.copyErr with
  | some e => Except.error ("error while copying externalConfig: " ++ e)
  | none =>
    match env.newDecoderErr with
    | some e => Except.error ("error creating externalConfig decoder: " ++ e)
    | none =>
      match env.decodeErr with
      | some e => Except.error ("error decoding externalConfig: " ++ e)
      | none => runStages env.stageErrs

/-- Result of one Configure invocation: the Go return value, the Vault
client token after return, and the outer rootToken buffer after return
(none modelling Go nil). -/
structure CfgOut where
  res : Except String Unit
  token : List Nat
  buf : Option (List Nat)

/-- Go `Configure` (operator_client.go): acquire a root token (keystore or
generate-root), THEN register the deferred cleanup (SetToken to empty,
rootToken buffer to nil), then apply the declarative configuration. Exits
taken during acquisition return with the client token untouched; exits
after it always run the deferred cleanup. -/
def Configure (env : CfgEnv) : Option CfgOut :=
  match acquireRoot env with
  | none => none
  | some (Except.error e) => some ⟨Except.error e, env.token0, none⟩
  | some (Except.ok _) => some ⟨configPhase env, [], none⟩

/-- One user object in the Keybase lookup response; bundle is
Primary.Bundle as a Go string (empty = missing primary key). -/
structure KbUser where
  bundle : List Nat

/-- The Keybase lookup response fields used by FetchKeybasePubkeys. -/
structure KbResp where
  statusName : String
  them : List KbUser

/-- An OpenPGP entity as FetchKeybasePubkeys uses it: its only observable
behaviour here is Serialize, which can fail. -/
structure PGPEntity where
  serializeRes : Except String (List Nat)

/-- Environment of one FetchKeybasePubkeys invocation: http client
construction, the GET, the JSON decode, and the armored-keyring parser
(entries are none for a nil entity, mirroring the source nil check). -/
structure FetchEnv where
  clientOk : Bool
  httpRes : Option String
  jsonRes : Except String KbResp
  parse : List Nat → Except String (List (Option PGPEntity))

/-- The per-user loop of Go `FetchKeybasePubkeys`: an empty bundle collects
usernames[i] into the missing list (panicking if i is out of range, as the
Go indexing does); otherwise parse the armored bundle, require exactly one
non-nil entity, serialize it and write its base64 at ret[i] (again a panic
when i is out of range). Error paths that format usernames[i] evaluate the
indexing first, so they too panic when i is out of range. -/
def fetchLoop (parse : List Nat → Except String (List (Option PGPEntity))) (usernames : List String) :
    List KbUser → Nat → List (List Nat) → List String → GoRes (List (List Nat) × List String)
  | [], _, ret, missing => GoRes.ok (ret, missing)
  | u :: rest, i, ret, missing =>
    if u.bundle = [] then
      match usernames[i]? with
      | none => GoRes.panic
      | some name => fetchLoop parse usernames rest (i + 1) ret (missing ++ [name])
    else
      match parse u.bundle with
      | Except.error e => GoRes.err e
      | Except.ok entityList =>
        if entityList.length ≠ 1 then
          match usernames[i]? with
          | none => GoRes.panic
          | some name => GoRes.err ("primary key could not be parsed for user " ++ name)
        else
          match entityList[0]? with
          | none => GoRes.panic
          | some none =>
            match usernames[i]? with
            | none => GoRes.panic
            | some name => GoRes.err ("primary key was nil for user " ++ name)
          | some (some ent) =>
            match ent.serializeRes with
            | Except.error e =>
              match usernames[i]? with
              | none => GoRes.panic
              | some name => GoRes.err ("error serializing entity for user " ++ name ++ ": " ++ e)
            | Except.ok bs =>
              if i < ret.length then
                fetchLoop parse usernames rest (i + 1) (ret.set i (b64Encode bs)) missing
              else GoRes.panic

/-- The keybase: marker stripper (strings.HasPrefix + strings.TrimPrefix
over the 8-character ASCII marker, expressed on the character list):
entries carrying the marker yield their username, all other entries are
dropped. -/
def kbStrip (v : String) : Option String :=
  if v.data.take 8 = ("keybase:").data then some (String.mk (v.data.drop 8)) else none

/-- Go `FetchKeybasePubkeys` (operator_client.go): drop entries without the
keybase: marker (no error; empty result when none remain), fetch and decode
the lookup response, require OK status, run the per-user loop, and fail
with one collected error naming every user whose primary bundle was empty. -/
def FetchKeybasePubkeys (env : FetchEnv) (input : List String) : GoRes (List (List Nat)) :=
  if env.clientOk = false then GoRes.err ("unable to create an http client")
  else if input = [] then GoRes.ok []
  else
    match input.filterMap kbStrip with
    | [] => GoRes.ok []
    | u0 :: urest =>
      let usernames := u0 :: urest
      match env.httpRes with
      | some e => GoRes.err e
      | none =>
        match env.jsonRes with
        | Except.error e => GoRes.err e
        | Except.ok out =>
          if out.statusName ≠ "OK" then GoRes.err ("got non-OK response: " ++ out.statusName)
          else
            match fetchLoop env.parse usernames out.them 0 (List.replicate usernames.length []) [] with
            | GoRes.panic => GoRes.panic
            | GoRes.err e => GoRes.err e
            | GoRes.ok (ret, missing) =>
              if missing = [] then GoRes.ok ret
              else GoRes.err ("unable to fetch keys for user(s) " ++ String.intercalate (",") missing ++ " from keybase")

/-- Is an Except an error (observable failure of a Go call). -/
def exceptIsErr {α : Type} : Except String α → Bool
  | Except.error _ => true
  | Except.ok _ => false

/-- Is a GoRes an error return. -/
def goResIsErr {α : Type} : GoRes α → Bool
  | GoRes.err _ => true
  | _ => false

/-- The users with an empty primary bundle, in response order, paired off
against the requested usernames. -/
def missingOf (usernames : List String) (them : List KbUser) : List String :=
  (usernames.zip them).filterMap (fun p => if p.2.bundle = [] then some p.1 else none)

/-- A fresh keystore: backend empty, writes always succeed. -/
def stEmpty : St := ⟨fun _ => GetOut.notFound, fun _ => none, [], []⟩

/-- Rekey run in which RekeyInit succeeds (nonce N) and then the first
keystore Get of an unseal share fails. -/
def envC1 : RekeyEnv :=
  ⟨[("keybase:alice")], Except.ok ⟨false, ""⟩, Except.ok [[65]], Except.ok ("N"),
   [⟨Except.error ("kv backend down"), Except.ok ⟨false, []⟩⟩], stEmpty⟩

/-- Rekey run adopting an in-progress nonce in which the first RekeyUpdate
call fails. -/
def envC1w : RekeyEnv :=
  ⟨[("keybase:alice")], Except.ok ⟨true, "M"⟩, Except.ok [[65]], Except.error ("unused"),
   [⟨Except.ok [107], Except.error ("http 500")⟩], stEmpty⟩

/-- Configure run with StoreRootToken in which the keystore Get of
vault-root fails while the client still holds a previous token. -/
def envC2 : CfgEnv :=
  ⟨true, [111, 108, 100], Except.error ("kv backend down"), none, Except.error ("unused"),
   Except.ok false, [], none, none, none, []⟩

/-- Configure run with StoreRootToken in which acquisition succeeds and all
seven sub-configurators succeed. -/
def envC2w : CfgEnv :=
  ⟨true, [111, 108, 100], Except.ok [114, 116], none, Except.error ("unused"),
   Except.ok false, [], none, none, none, [none, none, none, none, none, none, none]⟩

/-- Init run with BOTH InitRootToken ("sr") and StoreRootToken configured;
Vault returns one unseal key and root token "tmp". -/
def envC3 : InitEnv :=
  ⟨⟨1, 1, [115, 114], true, false⟩, stEmpty, Except.ok false, Except.ok false,
   Except.ok ⟨[[107, 48]], [], [116, 109, 112]⟩, [Except.ok false], Except.ok (), Except.ok ()⟩

/-- The keystore state Init leaves behind on envC3. -/
def stC3out : St :=
  ⟨fun _ => GetOut.notFound, fun _ => none,
   [(("vault-root"), [116, 109, 112]), (("vault-unseal-0"), [107, 48])],
   [("vault-unseal-0"), ("vault-root")]⟩

/-- The full Init result on envC3. -/
def outC3 : InitOut :=
  ⟨Except.ok (), stC3out,
   [Act.vaultInit, Act.setTokenAct [116, 109, 112], Act.createOrphan [115, 114],
    Act.revokeTok [116, 109, 112]],
   [115, 114], [116, 109, 112]⟩

/-- Keystore whose backend fails (non-NotFound) on the vault-root probe. -/
def stC4 : St :=
  ⟨fun k => if k = ("vault-root") then GetOut.errOut ("backend failure") else GetOut.notFound,
   fun _ => none, [], []⟩

/-- Init run over stC4: the vault-root probe hits a backend error;
everything else succeeds. -/
def envC4 : InitEnv :=
  ⟨⟨0, 0, [], false, false⟩, stC4, Except.ok false, Except.ok false,
   Except.ok ⟨[[75]], [], [114]⟩, [], Except.ok (), Except.ok ()⟩

/-- Recipient list and returned key list for the C5 witness: two
recipients, keys QQ== and QUI=. -/
def namesC5 : List String := [("keybase:alice"), ("keybase:bob")]

/-- Base64 keys for the C5 witness. -/
def keysC5 : List (List Nat) := [[81, 81, 61, 61], [81, 85, 73, 61]]

/-- One recipient but two returned keys, the first invalid base64. -/
def namesC10 : List String := [("alice")]

/-- Returned keys for the C10 counterexample: first is not base64. -/
def keysC10 : List (List Nat) := [[33, 33, 33, 33], [81, 81, 61, 61]]

/-- One recipient, two valid returned keys, for the C10 witness. -/
def namesC10w : List String := [("bob")]

/-- Returned keys for the C10 witness. -/
def keysC10w : List (List Nat) := [[81, 81, 61, 61], [81, 81, 61, 61]]

/-- An Unseal iteration that continues (sealed, progress 1). -/
def unsealStepCont : UnsealStep := ⟨Except.ok [107], Except.ok ⟨true, 1⟩⟩

/-- An Unseal iteration that hits the invalid-key condition. -/
def unsealStepBad : UnsealStep := ⟨Except.ok [108], Except.ok ⟨true, 0⟩⟩

/-- Unseal oracle list for the C6 witness. -/
def envC6w : List UnsealStep := [unsealStepCont, unsealStepBad]

/-- A PGP entity that serializes successfully. -/
def entC7 : PGPEntity := ⟨Except.ok [1, 2]⟩

/-- Keybase fetch environment for the C7 witness: alice has an empty
primary bundle, bob a healthy one. -/
def envC7 : FetchEnv :=
  ⟨true, none, Except.ok ⟨"OK", [⟨[]⟩, ⟨[66]⟩]⟩, fun _ => Except.ok [some entC7]⟩

/-- Input list for the C7 witness: one entry without the keybase: marker. -/
def inputC7 : List String := [("keybase:alice"), ("x"), ("keybase:bob")]

/-- Keystore whose backend already holds vault-test. -/
def stC9 : St :=
  ⟨fun k => if k = ("vault-test") then GetOut.found [120] else GetOut.notFound,
   fun _ => none, [], []⟩

/-- Keystore whose backend fails (non-NotFound) on vault-test. -/
def stC9w : St :=
  ⟨fun k => if k = ("vault-test") then GetOut.errOut ("disk failure") else GetOut.notFound,
   fun _ => none, [], []⟩

/-- Init run with PreFlightChecks enabled over stC9w. -/
def envC9w : InitEnv :=
  ⟨⟨1, 1, [], false, true⟩, stC9w, Except.ok false, Except.ok false,
   Except.error ("unused"), [], Except.ok (), Except.ok ()⟩

theorem zipWith_xor_cancel (a : List Nat) : ∀ b : List Nat, a.length = b.length →
    List.zipWith Nat.xor (List.zipWith Nat.xor a b) b = a := by
  induction a with
  | nil => intro b h; cases b; · rfl
           · simp at h
  | cons x xs ih =>
    intro b h
    cases b with
    | nil => simp at h
    | cons y ys =>
      simp only [List.zipWith_cons_cons, List.length_cons] at h ⊢
      refine congrArg₂ List.cons ?_ (ih ys (by omega))
      show (x ^^^ y) ^^^ y = x
      rw [Nat.xor_assoc, Nat.xor_self, Nat.xor_zero]

/-- C8: XORBytes fails exactly when the input lengths differ and otherwise
returns the byte-wise XOR, making it self-inverse (XORBytes (XORBytes a b)
b recovers a); XORBase64 standard-base64-decodes both inputs, fails when
either decode fails or yields empty bytes, and otherwise delegates to
XORBytes on the decoded bytes. -/
theorem c8_xor_codec (a b : List Nat) :
    (a.length = b.length →
      XORBytes a b = Except.ok (List.zipWith Nat.xor a b) ∧
      XORBytes (List.zipWith Nat.xor a b) b = Except.ok a) ∧
    (a.length ≠ b.length → XORBytes a b = Except.error ("length of byte slices is not equivalent")) ∧
    (∀ e, b64StdDecode a = Except.error e →
      XORBase64 a b = Except.error ("error decoding first base64 value")) ∧
    (b64StdDecode a = Except.ok [] →
      XORBase64 a b = Except.error ("decoded first base64 value is nil or empty")) ∧
    (∀ da e, b64StdDecode a = Except.ok da → da ≠ [] → b64StdDecode b = Except.error e →
      XORBase64 a b = Except.error ("error decoding second base64 value")) ∧
    (∀ da, b64StdDecode a = Except.ok da → da ≠ [] → b64StdDecode b = Except.ok [] →
      XORBase64 a b = Except.error ("decoded second base64 value is nil or empty")) ∧
    (∀ da db, b64StdDecode a = Except.ok da → da ≠ [] → b64StdDecode b = Except.ok db → db ≠ [] →
      XORBase64 a b = XORBytes da db) := by
  refine ⟨?_, ?_, ?_, ?_, ?_, ?_, ?_⟩
  · intro h
    have hz : (List.zipWith Nat.xor a b).length = b.length := by
      rw [List.length_zipWith, h, Nat.min_self]
    exact ⟨by simp [XORBytes, h], by simp [XORBytes, hz, zipWith_xor_cancel a b h]⟩
  · intro h; simp [XORBytes, h]
  · intro e he; simp [XORBase64, he]
  · intro h0; simp [XORBase64, h0]
  · intro da e hda hne hbe
    simp [XORBase64, hda, hbe, List.length_eq_zero, hne]
  · intro da hda hne hb0
    simp [XORBase64, hda, hb0, List.length_eq_zero, hne]
  · intro da db hda hne hdb hne2
    simp [XORBase64, hda, hdb, List.length_eq_zero, hne, hne2]

/-- C8 witness: the theorem applied at concrete bytes and base64 strings
(a = QUI= decoding to [65, 66], b = QQFC... picked of equal length). -/
theorem c8_xor_codec_witness :
    XORBytes [1, 2] [255, 254] = Except.ok [254, 252] ∧
    XORBytes [254, 252] [255, 254] = Except.ok [1, 2] ∧
    XORBase64 [81, 85, 73, 61] [81, 81, 61, 61] = XORBytes [65, 66] [65] := by
  refine ⟨?_, ?_, ?_⟩
  · have h := ((c8_xor_codec [1, 2] [255, 254]).1 (by decide)).1
    simpa using h
  · have h := ((c8_xor_codec [1, 2] [255, 254]).1 (by decide)).2
    simpa using h
  · exact (c8_xor_codec [81, 85, 73, 61] [81, 81, 61, 61]).2.2.2.2.2.2 [65, 66] [65]
      (by rfl) (by decide) (by rfl) (by decide)


theorem unsealLoop_cont_cons (t : UnsealStep) (env : List UnsealStep)
    (h : unsealContinues t = true) :
    unsealLoop (t :: env) = (unsealLoop env).map (fun p => (p.1 + 1, p.2)) := by
  unfold unsealContinues at h
  cases hg : t.getRes with
  | error e => rw [hg] at h; simp at h
  | ok k =>
    cases hu : t.unsealRes with
    | error e => rw [hg, hu] at h; simp at h
    | ok r =>
      rw [hg, hu] at h
      simp only [Bool.and_eq_true, decide_eq_true_eq] at h
      obtain ⟨h1, h2⟩ := h
      simp only [unsealLoop, hg, hu, h1, h2]
      simp only [Bool.true_eq_false, if_false, if_neg h2]
      cases unsealLoop env with
      | none => rfl
      | some p => rfl

theorem unsealLoop_at (env : List UnsealStep) (n : Nat) (s : UnsealStep) (rest : List UnsealStep)
    (hd : env.drop n = s :: rest) (hc : ∀ t ∈ env.take n, unsealContinues t = true) :
    unsealLoop env = (unsealLoop (s :: rest)).map (fun p => (p.1 + n, p.2)) := by
  induction n generalizing env with
  | zero =>
    simp only [List.drop_zero] at hd
    subst hd
    cases unsealLoop (s :: rest) with
    | none => rfl
    | some p => simp
  | succ n ih =>
    cases env with
    | nil => simp at hd
    | cons t env2 =>
      have hct : unsealContinues t = true := hc t (by simp [List.take_succ_cons])
      have h2 := ih env2 (by simpa using hd)
        (fun u hu => hc u (by simp only [List.take_succ_cons, List.mem_cons]; right; exact hu))
      rw [unsealLoop_cont_cons t env2 hct, h2]
      cases unsealLoop (s :: rest) with
      | none => rfl
      | some p => simp; omega

theorem unsealLoop_stepOk (s : UnsealStep) (rest : List UnsealStep)
    (h : unsealStepOk s = true) :
    unsealLoop (s :: rest) = some (1, Except.ok ()) := by
  unfold unsealStepOk at h
  cases hg : s.getRes with
  | error e => rw [hg] at h; simp at h
  | ok k =>
    cases hu : s.unsealRes with
    | error e => rw [hg, hu] at h; simp at h
    | ok r =>
      rw [hg, hu] at h
      simp only [decide_eq_true_eq] at h
      simp [unsealLoop, hg, hu, h]

theorem unsealLoop_stepBadKey (s : UnsealStep) (rest : List UnsealStep)
    (h : unsealStepBadKey s = true) :
    unsealLoop (s :: rest) = some (1, Except.error unsealBadKeyMsg) := by
  unfold unsealStepBadKey at h
  cases hg : s.getRes with
  | error e => rw [hg] at h; simp at h
  | ok k =>
    cases hu : s.unsealRes with
    | error e => rw [hg, hu] at h; simp at h
    | ok r =>
      rw [hg, hu] at h
      simp only [Bool.and_eq_true, decide_eq_true_eq] at h
      obtain ⟨h1, h2⟩ := h
      simp [unsealLoop, hg, hu, h1, h2]

theorem unsealLoop_ok_exists (env : List UnsealStep) :
    ∀ c, unsealLoop env = some (c, Except.ok ()) →
    ∃ n s rest, env.drop n = s :: rest ∧ (∀ t ∈ env.take n, unsealContinues t = true) ∧
      unsealStepOk s = true := by
  induction env with
  | nil => intro c h; simp [unsealLoop] at h
  | cons t env2 ih =>
    intro c h
    cases hg : t.getRes with
    | error e => simp [unsealLoop, hg] at h
    | ok k =>
      cases hu : t.unsealRes with
      | error e => simp [unsealLoop, hg, hu] at h
      | ok r =>
        by_cases hs : r.sealed = false
        · refine ⟨0, t, env2, by simp, by simp, ?_⟩
          unfold unsealStepOk
          rw [hg, hu]
          simp [hs]
        · have hs2 : r.sealed = true := by
            cases hr : r.sealed
            · exact absurd hr hs
            · rfl
          by_cases hp : r.progress = 0
          · simp [unsealLoop, hg, hu, hs2, hp] at h
          · have hcont : unsealContinues t = true := by
              unfold unsealContinues
              rw [hg, hu]
              simp [hs2, hp]
            rw [unsealLoop_cont_cons t env2 hcont] at h
            cases h2 : unsealLoop env2 with
            | none => rw [h2] at h; simp at h
            | some p =>
              rw [h2] at h
              obtain ⟨p1, p2⟩ := p
              simp at h
              obtain ⟨hc1, hc2⟩ := h
              obtain ⟨n, s, rest, ha, hb, hok⟩ := ih p1 (by rw [h2, hc2])
              refine ⟨n + 1, s, rest, by simpa using ha, ?_, hok⟩
              intro u hu2
              rw [List.take_succ_cons] at hu2
              cases hu2 with
              | head => exact hcont
              | tail _ hm => exact hb u hm

/-- C6: the Unseal loop returns success exactly when some unseal response
(reached after iterations that all continue) reports Sealed=false, and when
a response reports Sealed=true with Progress=0 after n continuing
iterations it fails with the invalid-key error having submitted exactly
n+1 shares: no further share is submitted. -/
theorem c6_unseal_loop (env : List UnsealStep) :
    ((∃ c, unsealLoop env = some (c, Except.ok ())) ↔
      (∃ n s rest, env.drop n = s :: rest ∧ (∀ t ∈ env.take n, unsealContinues t = true) ∧
        unsealStepOk s = true)) ∧
    (∀ n s rest, env.drop n = s :: rest → (∀ t ∈ env.take n, unsealContinues t = true) →
      unsealStepBadKey s = true →
      unsealLoop env = some (n + 1, Except.error unsealBadKeyMsg)) := by
  constructor
  · constructor
    · rintro ⟨c, hc⟩
      exact unsealLoop_ok_exists env c hc
    · rintro ⟨n, s, rest, hd, hc, hok⟩
      refine ⟨n + 1, ?_⟩
      rw [unsealLoop_at env n s rest hd hc, unsealLoop_stepOk s rest hok]
      simp [Nat.add_comm]
  · intro n s rest hd hc hbad
    rw [unsealLoop_at env n s rest hd hc, unsealLoop_stepBadKey s rest hbad]
    simp [Nat.add_comm]

/-- C6 witness: the theorem applied to a run with one continuing iteration
followed by a Progress=0 response: the loop fails with the invalid-key
error after exactly two submissions. -/
theorem c6_unseal_loop_witness :
    unsealLoop envC6w = some (2, Except.error unsealBadKeyMsg) :=
  (c6_unseal_loop envC6w).2 1 unsealStepBad []
    (by rfl)
    (by
      intro t ht
      simp [envC6w, List.take] at ht
      rw [ht]
      rfl)
    (by rfl)

theorem sendRekey_cont_cons (t : RekeyStep) (env : List RekeyStep)
    (h : rekeyContinues t = true) :
    sendRekeyUpdates (t :: env) = sendRekeyUpdates env := by
  unfold rekeyContinues at h
  cases hg : t.getRes with
  | error e => rw [hg] at h; simp at h
  | ok k =>
    cases hu : t.updRes with
    | error e => rw [hg, hu] at h; simp at h
    | ok r =>
      rw [hg, hu] at h
      simp only [Bool.not_eq_true'] at h
      simp [sendRekeyUpdates, hg, hu, h]

theorem sendRekey_at (env : List RekeyStep) (n : Nat) (s : RekeyStep) (rest : List RekeyStep)
    (hd : env.drop n = s :: rest) (hc : ∀ t ∈ env.take n, rekeyContinues t = true) :
    sendRekeyUpdates env = sendRekeyUpdates (s :: rest) := by
  induction n generalizing env with
  | zero =>
    simp only [List.drop_zero] at hd
    rw [hd]
  | succ n ih =>
    cases env with
    | nil => simp at hd
    | cons t env2 =>
      have hct : rekeyContinues t = true := hc t (by simp [List.take_succ_cons])
      rw [sendRekey_cont_cons t env2 hct]
      exact ih env2 (by simpa using hd)
        (fun u hu => hc u (by simp only [List.take_succ_cons, List.mem_cons]; right; exact hu))

theorem rekey_run_eq (env : RekeyEnv) (hr : rekeyReachesUpdates env = true) :
    Rekey env =
      (match sendRekeyUpdates env.steps with
       | none => none
       | some (c, Except.error e) => some ⟨GoRes.err e, c, env.st0⟩
       | some (c, Except.ok resp) =>
         match finishRekey env.st0 resp.keysB64 env.pgpKeys with
         | GoRes.ok s1 => some ⟨GoRes.ok (), c, s1⟩
         | GoRes.err e => some ⟨GoRes.err e, c, env.st0⟩
         | GoRes.panic => some ⟨GoRes.panic, c, env.st0⟩) := by
  unfold rekeyReachesUpdates at hr
  by_cases hpk : env.pgpKeys = []
  · simp [hpk] at hr
  · cases hst : env.statusRes with
    | error e => simp [hst, hpk] at hr
    | ok status =>
      cases hf : env.fetchRes with
      | error e => simp [hst, hf, hpk] at hr
      | ok ks =>
        by_cases hsd : status.started = true
        · simp [Rekey, hpk, hst, hf, hsd]
        · have hsd2 : status.started = false := by
            cases hq : status.started
            · rfl
            · exact absurd hq hsd
          cases hi : env.initRes with
          | error e => simp [hst, hf, hsd2, hi, hpk] at hr
          | ok nz =>
            simp only [hst, hf, hsd2, hi, hpk, Bool.false_or, Bool.and_eq_true,
              Bool.not_eq_true', decide_eq_false_iff_not, decide_eq_true_eq] at hr
            have hnz : ¬(nz = "") := by
              intro hq
              rw [hq] at hr
              simp at hr
            simp [Rekey, hpk, hst, hf, hsd2, rekeyInitPhase, hi, hnz]

/-- C1 amended: once Rekey has passed RekeyInit (or adopted an in-progress
rekey), a failing RekeyUpdate call triggers exactly one RekeyCancel attempt
before the error surfaces, but a failing keystore Get of an unseal share
surfaces with NO RekeyCancel attempt. -/
theorem c1_amended (env : RekeyEnv) (n : Nat) (s : RekeyStep) (rest : List RekeyStep)
    (hr : rekeyReachesUpdates env = true)
    (hd : env.steps.drop n = s :: rest)
    (hc : ∀ t ∈ env.steps.take n, rekeyContinues t = true) :
    (∀ e, s.getRes = Except.error e →
      Rekey env = some ⟨GoRes.err ("unable to get key: " ++ e), 0, env.st0⟩) ∧
    (∀ k e, s.getRes = Except.ok k → s.updRes = Except.error e →
      Rekey env = some ⟨GoRes.err ("failed to send rekey update request to vault"), 1, env.st0⟩) := by
  constructor
  · intro e he
    rw [rekey_run_eq env hr, sendRekey_at env.steps n s rest hd hc]
    simp [sendRekeyUpdates, he]
  · intro k e hk he
    rw [rekey_run_eq env hr, sendRekey_at env.steps n s rest hd hc]
    simp [sendRekeyUpdates, hk, he]

/-- C1 counterexample: a Rekey run in which RekeyInit succeeded and the
first keystore Get of an unseal share then fails returns the error with
ZERO RekeyCancel attempts, contradicting the claim that exactly one
RekeyCancel attempt is made for keystore Get failures as well. -/
theorem c1_counterexample :
    rekeyReachesUpdates envC1 = true ∧
    (Rekey envC1).map (fun o => o.cancels) = some 0 ∧
    (Rekey envC1).map (fun o => goResIsErr o.res) = some true :=
  ⟨rfl, rfl, rfl⟩

/-- C1 witness: the amended theorem applied to a run adopting an
in-progress nonce whose first RekeyUpdate call fails: exactly one
RekeyCancel attempt, error surfaced, keystore unchanged. -/
theorem c1_amended_witness :
    Rekey envC1w = some ⟨GoRes.err ("failed to send rekey update request to vault"), 1, stEmpty⟩ :=
  (c1_amended envC1w 0 ⟨Except.ok [107], Except.error ("http 500")⟩ [] (by rfl) (by rfl)
    (by intro t ht; simp at ht)).2 [107] ("http 500") rfl rfl

theorem keyPGPSet_ok_shape (s : St) (k : String) (v : List Nat) (s1 : St)
    (h : keyPGPSet s k v = (s1, none)) :
    ∃ d, b64StdDecode v = Except.ok d ∧ s.setErr k = none ∧
      s1.writes = (k, d) :: s.writes ∧ s1.setErr = s.setErr ∧ s1.base = s.base := by
  unfold keyPGPSet at h
  cases hd : b64StdDecode v with
  | error e => simp only [hd] at h; simp at h
  | ok d =>
    simp only [hd] at h
    unfold St.set at h
    cases hse : s.setErr k with
    | some e => simp only [hse] at h; simp at h
    | none =>
      simp only [hse] at h
      have h1 : ({ s with writes := (k, d) :: s.writes, attempts := s.attempts ++ [k] } : St) = s1 :=
        congrArg Prod.fst h
      exact ⟨d, rfl, rfl, by rw [← h1], by rw [← h1], by rw [← h1]⟩

theorem finishRekeyLoop_frame (names : List String) :
    ∀ (ks : List (List Nat)) (i : Nat) (s s2 : St),
    finishRekeyLoop names ks i s = GoRes.ok s2 →
    ∀ q, (∀ j, j < ks.length → q ≠ rekeyKeyID (names.getD (i + j) "") (i + j)) →
    kvLookup s2.writes q = kvLookup s.writes q := by
  intro ks
  induction ks with
  | nil =>
    intro i s s2 h q hq
    unfold finishRekeyLoop at h
    cases h
    rfl
  | cons k rest ih =>
    intro i s s2 h q hq
    unfold finishRekeyLoop at h
    cases hn : names[i]? with
    | none => simp only [hn] at h; simp at h
    | some name =>
      simp only [hn] at h
      cases hp : keyPGPSet s (rekeyKeyID name i) k with
      | mk s1 eo =>
        simp only [hp] at h
        cases eo with
        | some msg => exact GoRes.noConfusion h
        | none =>
          replace h : finishRekeyLoop names rest (i + 1) s1 = GoRes.ok s2 := h
          obtain ⟨d, _hd, _hse, hw, _hse2, _hb⟩ := keyPGPSet_ok_shape s _ k s1 hp
          have hname : names.getD i "" = name := by
            rw [List.getD_eq_getElem?_getD, hn]
            rfl
          have hfr := ih (i + 1) s1 s2 h q (by
            intro j hj
            have e1 : i + 1 + j = i + (j + 1) := by omega
            rw [e1]
            exact hq (j + 1) (by simpa using Nat.succ_lt_succ hj))
          rw [hfr, hw]
          have hq0 : q ≠ rekeyKeyID name i := by
            have h0 := hq 0 (by simp)
            rw [Nat.add_zero, hname] at h0
            exact h0
          show (if rekeyKeyID name i = q then some d else kvLookup s.writes q) = kvLookup s.writes q
          rw [if_neg (fun hh => hq0 hh.symm)]

theorem finishRekeyLoop_lookup (names : List String) :
    ∀ (ks : List (List Nat)) (i : Nat) (s s2 : St),
    finishRekeyLoop names ks i s = GoRes.ok s2 →
    (∀ a, a < ks.length → ∀ b, b < ks.length → a ≠ b →
      rekeyKeyID (names.getD (i + a) "") (i + a) ≠ rekeyKeyID (names.getD (i + b) "") (i + b)) →
    ∀ j, j < ks.length →
      ∃ d, b64StdDecode (ks.getD j []) = Except.ok d ∧
        kvLookup s2.writes (rekeyKeyID (names.getD (i + j) "") (i + j)) = some d := by
  intro ks
  induction ks with
  | nil => intro i s s2 h hdist j hj; simp at hj
  | cons k rest ih =>
    intro i s s2 h hdist j hj
    unfold finishRekeyLoop at h
    cases hn : names[i]? with
    | none => simp only [hn] at h; simp at h
    | some name =>
      simp only [hn] at h
      cases hp : keyPGPSet s (rekeyKeyID name i) k with
      | mk s1 eo =>
        simp only [hp] at h
        cases eo with
        | some msg => exact GoRes.noConfusion h
        | none =>
          replace h : finishRekeyLoop names rest (i + 1) s1 = GoRes.ok s2 := h
          obtain ⟨d, hd, _hse, hw, _hse2, _hb⟩ := keyPGPSet_ok_shape s _ k s1 hp
          have hname : names.getD i "" = name := by
            rw [List.getD_eq_getElem?_getD, hn]
            rfl
          cases j with
          | zero =>
            refine ⟨d, by simpa using hd, ?_⟩
            have hfr := finishRekeyLoop_frame names rest (i + 1) s1 s2 h (rekeyKeyID name i) (by
              intro j2 hj2
              have := hdist 0 (by simp) (j2 + 1) (by simpa using Nat.succ_lt_succ hj2) (by omega)
              have e1 : i + (j2 + 1) = i + 1 + j2 := by omega
              rw [Nat.add_zero, hname] at this
              rw [e1] at this
              exact this)
            simp only [Nat.add_zero, hname]
            rw [hfr, hw]
            unfold kvLookup
            simp
          | succ j2 =>
            have hj2 : j2 < rest.length := by simpa using hj
            have hrec := ih (i + 1) s1 s2 h (by
              intro a ha b hb hab
              have := hdist (a + 1) (by simpa using Nat.succ_lt_succ ha)
                (b + 1) (by simpa using Nat.succ_lt_succ hb) (by omega)
              have e1 : i + (a + 1) = i + 1 + a := by omega
              have e2 : i + (b + 1) = i + 1 + b := by omega
              rw [e1, e2] at this
              exact this) j2 hj2
            obtain ⟨d2, hd2, hl⟩ := hrec
            refine ⟨d2, by simpa [List.getD_cons_succ] using hd2, ?_⟩
            have e3 : i + 1 + j2 = i + (j2 + 1) := by omega
            rw [e3] at hl
            exact hl

/-- C5: after a successful finishRekey over recipients with one base64 key
per recipient (and the derived share names pairwise distinct, which holds
for distinct indices in practice), the keystore maps each name
`<recipient_i>-vault-unseal-<i>` to the single base64-decode of the i-th
returned key; the write is a plain Set, so it lands regardless of what the
initial store held under that name (an existing entry is overwritten). -/
theorem c5_rekey_persist (s s2 : St) (keysB64 : List (List Nat)) (names : List String)
    (hlen : keysB64.length = names.length)
    (hdist : ∀ a, a < names.length → ∀ b, b < names.length → a ≠ b →
      rekeyKeyID (names.getD a "") a ≠ rekeyKeyID (names.getD b "") b)
    (hok : finishRekey s keysB64 names = GoRes.ok s2) :
    ∀ i, i < names.length →
      ∃ d, b64StdDecode (keysB64.getD i []) = Except.ok d ∧
        kvLookup s2.writes (rekeyKeyID (names.getD i "") i) = some d := by
  intro i hi
  have h := finishRekeyLoop_lookup names keysB64 0 s s2 hok (by
    intro a ha b hb hab
    simpa using hdist a (by omega) b (by omega) hab) i (by omega)
  simpa using h

/-- C5 witness: the theorem applied to two recipients with keys QQ== and
QUI=, over a store that already held an entry under the first share name
(demonstrating the overwrite): the final store maps
keybase:alice-vault-unseal-0 to [65] and keybase:bob-vault-unseal-1 to
[65, 66]. -/
theorem c5_rekey_persist_witness :
    ∃ d, b64StdDecode (keysC5.getD 0 []) = Except.ok d ∧
      kvLookup ([(rekeyKeyID ("keybase:bob") 1, [65, 66]),
        (rekeyKeyID ("keybase:alice") 0, [65]),
        (rekeyKeyID ("keybase:alice") 0, [9, 9])] : List (String × List Nat))
        (rekeyKeyID (namesC5.getD 0 "") 0) = some d :=
  c5_rekey_persist
    ⟨fun _ => GetOut.notFound, fun _ => none,
      [(rekeyKeyID ("keybase:alice") 0, [9, 9])], []⟩
    ⟨fun _ => GetOut.notFound, fun _ => none,
      [(rekeyKeyID ("keybase:bob") 1, [65, 66]),
       (rekeyKeyID ("keybase:alice") 0, [65]),
       (rekeyKeyID ("keybase:alice") 0, [9, 9])],
      [rekeyKeyID ("keybase:alice") 0, rekeyKeyID ("keybase:bob") 1]⟩
    keysC5 namesC5 (by rfl) (by decide) (by rfl) 0 (by decide)

theorem finishRekeyLoop_no_panic (names : List String) :
    ∀ (ks : List (List Nat)) (i : Nat) (s : St), i + ks.length ≤ names.length →
    finishRekeyLoop names ks i s ≠ GoRes.panic := by
  intro ks
  induction ks with
  | nil =>
    intro i s h
    unfold finishRekeyLoop
    exact fun hh => GoRes.noConfusion hh
  | cons k rest ih =>
    intro i s h
    have hi : i < names.length := by
      simp only [List.length_cons] at h
      omega
    have hn : names[i]? = some names[i] := List.getElem?_eq_getElem hi
    unfold finishRekeyLoop
    simp only [hn]
    cases hp : keyPGPSet s (rekeyKeyID (names[i]) i) k with
    | mk s1 eo =>
      cases eo with
      | some msg => exact fun hh => GoRes.noConfusion hh
      | none =>
        exact ih (i + 1) s1 (by
          simp only [List.length_cons] at h
          omega)

theorem finishRekeyLoop_panic (names : List String) :
    ∀ (ks : List (List Nat)) (i : Nat) (s : St),
    names.length < i + ks.length → i ≤ names.length →
    (∀ j, i ≤ j → j < names.length →
      (∃ d, b64StdDecode (ks.getD (j - i) []) = Except.ok d) ∧
      s.setErr (rekeyKeyID (names.getD j "") j) = none) →
    finishRekeyLoop names ks i s = GoRes.panic := by
  intro ks
  induction ks with
  | nil =>
    intro i s h1 h2 _h3
    simp only [List.length_nil, Nat.add_zero] at h1
    omega
  | cons k rest ih =>
    intro i s h1 h2 h3
    by_cases hi : i = names.length
    · have hn : names[i]? = none := by
        rw [List.getElem?_eq_none_iff]
        omega
      unfold finishRekeyLoop
      simp only [hn]
    · have hilt : i < names.length := by omega
      have hn : names[i]? = some names[i] := List.getElem?_eq_getElem hilt
      have hname : names.getD i "" = names[i] := by
        rw [List.getD_eq_getElem?_getD, hn]
        rfl
      obtain ⟨⟨d, hd⟩, hse⟩ := h3 i (Nat.le_refl i) hilt
      have hd0 : b64StdDecode k = Except.ok d := by
        have e0 : i - i = 0 := by omega
        rw [e0] at hd
        simpa using hd
      rw [hname] at hse
      have hkp : keyPGPSet s (rekeyKeyID (names[i]) i) k =
          ({ s with
              writes := (rekeyKeyID (names[i]) i, d) :: s.writes,
              attempts := s.attempts ++ [rekeyKeyID (names[i]) i] }, none) := by
        unfold keyPGPSet St.set
        simp only [hd0, hse]
      unfold finishRekeyLoop
      simp only [hn, hkp]
      apply ih (i + 1)
      · simp only [List.length_cons] at h1
        omega
      · omega
      · intro j hj1 hj2
        have hrec := h3 j (by omega) hj2
        obtain ⟨⟨d2, hd2⟩, hse2⟩ := hrec
        constructor
        · refine ⟨d2, ?_⟩
          have e1 : j - i = (j - (i + 1)) + 1 := by omega
          rw [e1] at hd2
          simpa [List.getD_cons_succ] using hd2
        · exact hse2

/-- C10 amended: finishRekey is free of out-of-bounds access whenever the
response carries at most one key per recipient; when it carries MORE keys
than recipients AND the first len(recipients) iterations complete without
error (their keys decode and their stores succeed), the recipient indexing
at position len(recipients) is out of range, a Go panic. An earlier decode
or store failure in such a run returns that error before the out-of-range
index is reached, so the panic is not unconditional. -/
theorem c10_amended (s : St) (keysB64 : List (List Nat)) (names : List String) :
    (keysB64.length ≤ names.length → finishRekey s keysB64 names ≠ GoRes.panic) ∧
    (names.length < keysB64.length →
      (∀ j, j < names.length →
        (∃ d, b64StdDecode (keysB64.getD j []) = Except.ok d) ∧
        s.setErr (rekeyKeyID (names.getD j "") j) = none) →
      finishRekey s keysB64 names = GoRes.panic) := by
  constructor
  · intro h
    exact finishRekeyLoop_no_panic names keysB64 0 s (by omega)
  · intro h1 h3
    apply finishRekeyLoop_panic names keysB64 0 s (by omega) (by omega)
    intro j _hj0 hj
    simpa using h3 j hj

/-- C10 counterexample: a response with two keys for one recipient whose
FIRST key is invalid base64 makes finishRekey return a decode error, not
panic, refuting the unconditional out-of-range reading of the claim. -/
theorem c10_counterexample :
    namesC10.length < keysC10.length ∧
    finishRekey stEmpty keysC10 namesC10 =
      GoRes.err ("error storing unseal key: error setting data: illegal base64 data: bad character") := by
  exact ⟨by decide, rfl⟩

/-- C10 witness: the amended theorem at one recipient and two valid keys
(all leading iterations succeed): finishRekey panics; and at the
length-respecting pair it cannot panic. -/
theorem c10_amended_witness :
    finishRekey stEmpty keysC10w namesC10w = GoRes.panic ∧
    finishRekey stEmpty keysC5 namesC5 ≠ GoRes.panic := by
  constructor
  · apply (c10_amended stEmpty keysC10w namesC10w).2 (by decide)
    intro j hj
    have hj0 : j = 0 := by
      simp [namesC10w] at hj
      omega
    subst hj0
    exact ⟨⟨[65], rfl⟩, rfl⟩
  · exact (c10_amended stEmpty keysC5 namesC5).1 (by decide)

/-- C2 amended: Configure clears the Vault client token (to empty) and nils
the outer root-token buffer on every exit path reached AFTER root-token
acquisition completes, success and failure alike; on errors during the
acquisition phase it returns before the deferred cleanup is registered, so
the client token keeps its previous value (no new token was set on those
paths) and the outer buffer is still nil. -/
theorem c2_configure_cleanup (env : CfgEnv) :
    (∀ p, acquireRoot env = some (Except.ok p) →
      Configure env = some ⟨configPhase env, [], none⟩) ∧
    (∀ e, acquireRoot env = some (Except.error e) →
      Configure env = some ⟨Except.error e, env.token0, none⟩) := by
  constructor
  · intro p hp
    unfold Configure
    rw [hp]
  · intro e he
    unfold Configure
    rw [he]

/-- C2 counterexample: with StoreRootToken set and the keystore Get of
vault-root failing, Configure returns the error while the client token
still holds its previous (nonempty) value, refuting the claim that the
token is empty on every exit path. -/
theorem c2_counterexample :
    (Configure envC2).map (fun o => o.token) = some [111, 108, 100] ∧
    (Configure envC2).map (fun o => exceptIsErr o.res) = some true ∧
    [111, 108, 100] ≠ ([] : List Nat) :=
  ⟨rfl, rfl, by decide⟩

/-- C2 witness: the amended theorem applied to a run whose acquisition
succeeds (vault-root read from the keystore) and whose configuration phase
succeeds: the final token is empty and the buffer nil. -/
theorem c2_configure_cleanup_witness :
    Configure envC2w = some ⟨Except.ok (), [], none⟩ := by
  have h := (c2_configure_cleanup envC2w).1 ([114, 116], none) (by rfl)
  rw [h]
  rfl

/-- C9 amended: the pre-flight probe attempts get(vault-test) first and the
set of vault-test is performed exactly when the get does NOT return a
non-NotFound backend error, i.e. both when the get signals NotFound and
when the key is already present; a non-NotFound backend error aborts
Init with the probe error before the Vault init call is made and before
any keystore write. -/
theorem c9_preflight (s : St) (k : String) (env : InitEnv) :
    (∀ e, s.get k = GetOut.errOut e → kvTesterTest s k = (s, some e)) ∧
    ((∀ e, s.get k ≠ GetOut.errOut e) →
      (kvTesterTest s k).1.attempts = s.attempts ++ [k]) ∧
    (∀ e, env.cfg.preFlightChecks = true → env.initStatus = Except.ok false →
      env.st0.get ("vault-test") = GetOut.errOut e →
      Init env = some ⟨Except.error ("error testing keystore before init: " ++ e), env.st0, [], [], []⟩) := by
  refine ⟨?_, ?_, ?_⟩
  · intro e he
    unfold kvTesterTest
    simp only [he]
  · intro hne
    unfold kvTesterTest
    cases hg : s.get k with
    | found v =>
      unfold St.set
      cases hse : s.setErr k <;> simp
    | notFound =>
      unfold St.set
      cases hse : s.setErr k <;> simp
    | errOut e => exact absurd hg (hne e)
  · intro e hp hst hge
    unfold Init
    simp only [hst, hp, if_true]
    have h1 : kvTesterTest env.st0 ("vault-test") = (env.st0, some e) := by
      unfold kvTesterTest
      simp only [hge]
    simp only [h1]

/-- C9 counterexample: when vault-test is already present, the get succeeds
and the set is STILL performed (and succeeds), refuting the claim that the
set happens exactly when the get signals NotFound. -/
theorem c9_counterexample :
    stC9.get ("vault-test") = GetOut.found [120] ∧
    (kvTesterTest stC9 ("vault-test")).1.attempts = [("vault-test")] ∧
    (kvTesterTest stC9 ("vault-test")).2 = none :=
  ⟨rfl, rfl, rfl⟩

/-- C9 witness: the amended theorem applied to a backend-error probe (Test
returns the error, Init aborts with it, the store untouched) and to an
empty store (the set is attempted). -/
theorem c9_preflight_witness :
    kvTesterTest stC9w ("vault-test") = (stC9w, some ("disk failure")) ∧
    (kvTesterTest stEmpty ("vault-test")).1.attempts = [("vault-test")] ∧
    Init envC9w = some ⟨Except.error ("error testing keystore before init: disk failure"), stC9w, [], [], []⟩ := by
  refine ⟨?_, ?_, ?_⟩
  · exact (c9_preflight stC9w ("vault-test") envC9w).1 ("disk failure") rfl
  · exact (c9_preflight stEmpty ("vault-test") envC9w).2.1 (fun e h => GetOut.noConfusion h)
  · exact (c9_preflight stC9w ("vault-test") envC9w).2.2 ("disk failure") rfl rfl rfl

theorem keyUnsealForID_ne_root (i : Nat) : keyUnsealForID i ≠ ("vault-root") := by
  intro h
  have h2 := congrArg String.length h
  rw [keyUnsealForID, String.length_append] at h2
  have e1 : ("vault-unseal-").length = 13 := rfl
  have e2 : ("vault-root").length = 10 := rfl
  rw [e1, e2] at h2
  omega

theorem keyRecoveryForID_ne_root (i : Nat) : keyRecoveryForID i ≠ ("vault-root") := by
  intro h
  have h2 := congrArg String.length h
  rw [keyRecoveryForID, String.length_append] at h2
  have e1 : ("vault-recovery-").length = 15 := rfl
  have e2 : ("vault-root").length = 10 := rfl
  rw [e1, e2] at h2
  omega

theorem set_frame (s : St) (k q : String) (v : List Nat) (hq : q ≠ k) :
    kvLookup ((s.set k v).1).writes q = kvLookup s.writes q := by
  unfold St.set
  cases hse : s.setErr k with
  | some e => rfl
  | none =>
    show (if k = q then some v else kvLookup s.writes q) = kvLookup s.writes q
    rw [if_neg (fun hh => hq hh.symm)]

theorem keyStoreSet_frame (s : St) (k q : String) (v : List Nat) (hq : q ≠ k) :
    kvLookup ((keyStoreSet s k v).1).writes q = kvLookup s.writes q := by
  unfold keyStoreSet
  cases hn : keyStoreNotFound s k with
  | mk nf eo =>
    cases nf with
    | false =>
      cases eo with
      | none => rfl
      | some e => rfl
    | true => exact set_frame s k q v hq

theorem kvTesterTest_frame (s : St) (k q : String) (hq : q ≠ k) :
    kvLookup ((kvTesterTest s k).1).writes q = kvLookup s.writes q := by
  unfold kvTesterTest
  cases hg : s.get k with
  | errOut e => rfl
  | found v => exact set_frame s k q (strBytes k) hq
  | notFound => exact set_frame s k q (strBytes k) hq

theorem storeShareKeys_frame (mk : Nat → String) (q : String) (hq : ∀ j, q ≠ mk j) :
    ∀ (ks : List (List Nat)) (i : Nat) (s : St),
    kvLookup ((storeShareKeys mk ks i s).1).writes q = kvLookup s.writes q := by
  intro ks
  induction ks with
  | nil => intro i s; rfl
  | cons v rest ih =>
    intro i s
    unfold storeShareKeys
    cases hp : keyStoreSet s (mk i) v with
    | mk s1 eo =>
      have hframe : kvLookup s1.writes q = kvLookup s.writes q := by
        have := keyStoreSet_frame s (mk i) q v (hq i)
        rw [hp] at this
        exact this
      cases eo with
      | some e => exact hframe
      | none =>
        show kvLookup ((storeShareKeys mk rest (i + 1) s1).1).writes q = kvLookup s.writes q
        rw [ih (i + 1) s1]
        exact hframe

theorem keyStoreSet_ok_lookup (s : St) (k : String) (v : List Nat) (s1 : St)
    (h : keyStoreSet s k v = (s1, none)) : kvLookup s1.writes k = some v := by
  unfold keyStoreSet at h
  cases hn : keyStoreNotFound s k with
  | mk nf eo =>
    simp only [hn] at h
    cases nf with
    | false =>
      cases eo with
      | none => exact Option.noConfusion (congrArg Prod.snd h)
      | some e => exact Option.noConfusion (congrArg Prod.snd h)
    | true =>
      replace h : s.set k v = (s1, none) := h
      unfold St.set at h
      cases hse : s.setErr k with
      | some e =>
        simp only [hse] at h
        exact Option.noConfusion (congrArg Prod.snd h)
      | none =>
        simp only [hse] at h
        have h1 : ({ s with writes := (k, v) :: s.writes, attempts := s.attempts ++ [k] } : St) = s1 :=
          congrArg Prod.fst h
        rw [← h1]
        show (if k = k then some v else kvLookup s.writes k) = some v
        rw [if_pos rfl]

theorem initOut_err_absurd {C : Prop} (e : String) (st : St) (tr : List Act)
    (fr rr : List Nat) (out : InitOut)
    (h : some (⟨Except.error e, st, tr, fr, rr⟩ : InitOut) = some out)
    (hres : out.res = Except.ok ()) : C := by
  injection h with h2
  rw [← h2] at hres
  exact Except.noConfusion hres

theorem storeTail_spec (env : InitEnv) (retRoot : List Nat) (s : St) (tr : List Act)
    (rootVar : List Nat) (out : InitOut)
    (h : storeTail env retRoot s tr rootVar = some out) (hres : out.res = Except.ok ()) :
    out.retRoot = retRoot ∧ out.trace = tr ∧ out.finalRoot = rootVar ∧
    (env.cfg.storeRootToken = true → kvLookup out.st.writes ("vault-root") = some retRoot) ∧
    (env.cfg.storeRootToken = false → out.st = s) := by
  unfold storeTail at h
  by_cases hs : env.cfg.storeRootToken = true
  · simp only [hs, if_true] at h
    cases hk : keyStoreSet s ("vault-root") retRoot with
    | mk s4 eo =>
      simp only [hk] at h
      cases eo with
      | some e => exact initOut_err_absurd _ _ _ _ _ out h hres
      | none =>
        replace h : some (⟨Except.ok (), s4, tr, rootVar, retRoot⟩ : InitOut) = some out := h
        injection h with h2
        subst h2
        refine ⟨rfl, rfl, rfl, fun _ => ?_, fun hf => ?_⟩
        · exact keyStoreSet_ok_lookup s ("vault-root") retRoot s4 hk
        · rw [hs] at hf
          exact Bool.noConfusion hf
  · have hs2 : env.cfg.storeRootToken = false := by
      cases hq : env.cfg.storeRootToken
      · rfl
      · exact absurd hq hs
    simp only [hs2, Bool.false_eq_true, if_false] at h
    replace h : some (⟨Except.ok (), s, tr, rootVar, retRoot⟩ : InitOut) = some out := h
    injection h with h2
    subst h2
    refine ⟨rfl, rfl, rfl, fun hf => ?_, fun _ => rfl⟩
    rw [hs2] at hf
    exact Bool.noConfusion hf

theorem rootTail_spec (env : InitEnv) (retRoot : List Nat) (s : St) (tr : List Act) (out : InitOut)
    (h : rootTail env retRoot s tr = some out) (hres : out.res = Except.ok ()) :
    out.retRoot = retRoot ∧
    (env.cfg.storeRootToken = true → kvLookup out.st.writes ("vault-root") = some retRoot) ∧
    (env.cfg.storeRootToken = false → out.st = s) ∧
    (env.cfg.initRootToken ≠ [] →
      Act.createOrphan env.cfg.initRootToken ∈ out.trace ∧
      Act.revokeTok retRoot ∈ out.trace ∧
      out.finalRoot = env.cfg.initRootToken) := by
  unfold rootTail at h
  by_cases hirt : env.cfg.initRootToken = []
  · simp only [hirt, if_pos] at h
    have hspec := storeTail_spec env retRoot s tr retRoot out h hres
    exact ⟨hspec.1, hspec.2.2.2.1, hspec.2.2.2.2, fun hn => absurd hirt hn⟩
  · simp only [if_neg hirt] at h
    cases hw : waitUnsealed env.polls with
    | none =>
      simp only [hw] at h
      exact Option.noConfusion h
    | some u =>
      cases u
      simp only [hw] at h
      cases ho : env.orphanRes with
      | error e =>
        simp only [ho] at h
        exact initOut_err_absurd _ _ _ _ _ out h hres
      | ok u2 =>
        cases u2
        simp only [ho] at h
        cases hrv : env.revokeRes with
        | error e =>
          simp only [hrv] at h
          exact initOut_err_absurd _ _ _ _ _ out h hres
        | ok u3 =>
          cases u3
          simp only [hrv] at h
          replace h : storeTail env retRoot s
              (tr ++ [Act.setTokenAct retRoot, Act.createOrphan env.cfg.initRootToken,
                Act.revokeTok retRoot]) env.cfg.initRootToken = some out := h
          have hspec := storeTail_spec env retRoot s _ env.cfg.initRootToken out h hres
          refine ⟨hspec.1, hspec.2.2.2.1, hspec.2.2.2.2, fun _ => ⟨?_, ?_, hspec.2.2.1⟩⟩
          · rw [hspec.2.1]
            simp
          · rw [hspec.2.1]
            simp

/-- C3 amended: Init's two root-token clauses are INDEPENDENT ifs, not
mutually exclusive branches. On a successful initializing run: when
InitRootToken is configured, Init creates the orphan root-policy token with
the provided ID, revokes the freshly returned root, and records
InitRootToken as the effective root; and REGARDLESS of that, the returned
root token is persisted under vault-root exactly when StoreRootToken is
set, so with both options configured the (revoked) returned root IS stored
under vault-root. -/
theorem c3_amended (env : InitEnv) (out : InitOut)
    (h : Init env = some out) (hres : out.res = Except.ok ())
    (hst : env.initStatus = Except.ok false) (hw0 : env.st0.writes = []) :
    (env.cfg.storeRootToken = true → kvLookup out.st.writes ("vault-root") = some out.retRoot) ∧
    (env.cfg.storeRootToken = false → kvLookup out.st.writes ("vault-root") = none) ∧
    (env.cfg.initRootToken ≠ [] →
      Act.createOrphan env.cfg.initRootToken ∈ out.trace ∧
      Act.revokeTok out.retRoot ∈ out.trace ∧
      out.finalRoot = env.cfg.initRootToken) := by
  unfold Init at h
  simp only [hst] at h
  cases hpf : (if env.cfg.preFlightChecks then kvTesterTest env.st0 ("vault-test")
      else (env.st0, none)) with
  | mk s1 e1 =>
    simp only [hpf] at h
    cases e1 with
    | some e => exact initOut_err_absurd _ _ _ _ _ out h hres
    | none =>
      cases hpr : probeKeys s1 (probeList env.cfg.secretShares) with
      | some e =>
        simp only [hpr] at h
        exact initOut_err_absurd _ _ _ _ _ out h hres
      | none =>
        simp only [hpr] at h
        cases hss : env.sealStatus with
        | error e =>
          simp only [hss] at h
          exact initOut_err_absurd _ _ _ _ _ out h hres
        | ok rsl =>
          simp only [hss] at h
          cases hic : env.initCall with
          | error e =>
            simp only [hic] at h
            exact initOut_err_absurd _ _ _ _ _ out h hres
          | ok resp =>
            simp only [hic] at h
            cases hs2 : storeShareKeys keyUnsealForID resp.keys 0 s1 with
            | mk s2 e2 =>
              simp only [hs2] at h
              cases e2 with
              | some e => exact initOut_err_absurd _ _ _ _ _ out h hres
              | none =>
                cases hs3 : storeShareKeys keyRecoveryForID resp.recoveryKeys 0 s2 with
                | mk s3 e3 =>
                  simp only [hs3] at h
                  cases e3 with
                  | some e => exact initOut_err_absurd _ _ _ _ _ out h hres
                  | none =>
                    replace h : rootTail env resp.rootToken s3 [Act.vaultInit] = some out := h
                    have hspec := rootTail_spec env resp.rootToken s3 [Act.vaultInit] out h hres
                    have hvr : kvLookup s3.writes ("vault-root") = none := by
                      have f3 := storeShareKeys_frame keyRecoveryForID ("vault-root")
                        (fun j => Ne.symm (keyRecoveryForID_ne_root j)) resp.recoveryKeys 0 s2
                      rw [hs3] at f3
                      have f2 := storeShareKeys_frame keyUnsealForID ("vault-root")
                        (fun j => Ne.symm (keyUnsealForID_ne_root j)) resp.keys 0 s1
                      rw [hs2] at f2
                      have f1 : kvLookup s1.writes ("vault-root") = kvLookup env.st0.writes ("vault-root") := by
                        by_cases hpc : env.cfg.preFlightChecks = true
                        · have f0 := kvTesterTest_frame env.st0 ("vault-test") ("vault-root") (by decide)
                          simp only [hpc, if_true] at hpf
                          rw [hpf] at f0
                          exact f0
                        · have hpc2 : env.cfg.preFlightChecks = false := by
                            cases hq : env.cfg.preFlightChecks
                            · rfl
                            · exact absurd hq hpc
                          simp only [hpc2, Bool.false_eq_true, if_false] at hpf
                          have hA : env.st0 = s1 := congrArg Prod.fst hpf
                          rw [← hA]
                      have f4 : kvLookup env.st0.writes ("vault-root") = none := by
                        rw [hw0]
                        rfl
                      calc kvLookup s3.writes ("vault-root")
                          = kvLookup s2.writes ("vault-root") := f3
                        _ = kvLookup s1.writes ("vault-root") := f2
                        _ = kvLookup env.st0.writes ("vault-root") := f1
                        _ = none := f4
                    refine ⟨?_, ?_, ?_⟩
                    · intro hsrt
                      rw [hspec.1]
                      exact hspec.2.1 hsrt
                    · intro hsrt
                      rw [hspec.2.2.1 hsrt]
                      exact hvr
                    · intro hirt
                      have hp4 := hspec.2.2.2 hirt
                      exact ⟨hp4.1, by rw [hspec.1]; exact hp4.2.1, hp4.2.2⟩

/-- C3 counterexample: an Init run with BOTH InitRootToken and
StoreRootToken configured succeeds AND persists the returned root token
"tmp" under vault-root, refuting the mutual-exclusivity reading in which
nothing is persisted under vault-root when InitRootToken is configured. -/
theorem c3_counterexample :
    envC3.cfg.initRootToken ≠ [] ∧
    (Init envC3).map (fun o => o.res) = some (Except.ok ()) ∧
    (Init envC3).map (fun o => kvLookup o.st.writes ("vault-root")) =
      some (some [116, 109, 112]) :=
  ⟨by decide, rfl, rfl⟩

/-- C3 witness: the amended theorem applied to the concrete run with both
options configured: the orphan-create and revoke actions appear in the
trace, InitRootToken is the effective root, and vault-root holds the
returned root. -/
theorem c3_amended_witness :
    Act.createOrphan envC3.cfg.initRootToken ∈ outC3.trace ∧
    Act.revokeTok outC3.retRoot ∈ outC3.trace ∧
    outC3.finalRoot = envC3.cfg.initRootToken ∧
    kvLookup outC3.st.writes ("vault-root") = some outC3.retRoot := by
  have h := c3_amended envC3 outC3 rfl rfl rfl rfl
  have h3 := h.2.2 (by decide)
  exact ⟨h3.1, h3.2.1, h3.2.2, h.1 rfl⟩

/-- C4: evaluation at the failing input. The pre-init probe loop's error
guard (notFound AND err) is unsatisfiable, so a non-NotFound backend error
on the vault-root probe is silently swallowed: probeKeys succeeds and the
whole Init run returns success despite the backend failure, contradicting
the claimed propagation of non-NotFound probe errors. -/
theorem c4_probe_swallow :
    stC4.base ("vault-root") = GetOut.errOut ("backend failure") ∧
    probeKeys stC4 (probeList envC4.cfg.secretShares) = none ∧
    (Init envC4).map (fun o => o.res) = some (Except.ok ()) :=
  ⟨rfl, rfl, rfl⟩

theorem missingOf_nil_left (them : List KbUser) : missingOf [] them = [] := by
  unfold missingOf
  rfl

theorem missingOf_nil_right (ns : List String) : missingOf ns [] = [] := by
  unfold missingOf
  rw [List.zip_nil_right]
  rfl

theorem missingOf_cons_empty (n : String) (ns : List String) (u : KbUser) (rest : List KbUser)
    (hb : u.bundle = []) : missingOf (n :: ns) (u :: rest) = n :: missingOf ns rest := by
  unfold missingOf
  rw [List.zip_cons_cons, List.filterMap_cons]
  simp [hb]

theorem missingOf_cons_nonempty (n : String) (ns : List String) (u : KbUser) (rest : List KbUser)
    (hb : u.bundle ≠ []) : missingOf (n :: ns) (u :: rest) = missingOf ns rest := by
  unfold missingOf
  rw [List.zip_cons_cons, List.filterMap_cons]
  simp [hb]

theorem fetchLoop_healthy (parse : List Nat → Except String (List (Option PGPEntity)))
    (usernames : List String) :
    ∀ (them : List KbUser) (i : Nat) (ret : List (List Nat)) (missing : List String),
    i + them.length ≤ usernames.length →
    ret.length = usernames.length →
    (∀ u ∈ them, u.bundle ≠ [] →
      ∃ ent bs, parse u.bundle = Except.ok [some ent] ∧ ent.serializeRes = Except.ok bs) →
    ∃ ret2, fetchLoop parse usernames them i ret missing =
      GoRes.ok (ret2, missing ++ missingOf (usernames.drop i) them) := by
  intro them
  induction them with
  | nil =>
    intro i ret missing _h1 _h2 _h3
    refine ⟨ret, ?_⟩
    unfold fetchLoop
    rw [missingOf_nil_right]
    simp
  | cons u rest ih =>
    intro i ret missing h1 h2 h3
    have hi : i < usernames.length := by
      simp only [List.length_cons] at h1
      omega
    have hn : usernames[i]? = some usernames[i] := List.getElem?_eq_getElem hi
    have hdrop : usernames.drop i = usernames[i] :: usernames.drop (i + 1) :=
      List.drop_eq_getElem_cons hi
    by_cases hb : u.bundle = []
    · obtain ⟨ret2, hr⟩ := ih (i + 1) ret (missing ++ [usernames[i]])
        (by simp only [List.length_cons] at h1; omega) h2
        (fun v hv hvb => h3 v (by simp [hv]) hvb)
      refine ⟨ret2, ?_⟩
      unfold fetchLoop
      rw [if_pos hb, hn]
      show fetchLoop parse usernames rest (i + 1) ret (missing ++ [usernames[i]]) =
        GoRes.ok (ret2, missing ++ missingOf (usernames.drop i) (u :: rest))
      rw [hdrop, missingOf_cons_empty _ _ _ _ hb, hr]
      simp
    · obtain ⟨ent, bs, hp, hs⟩ := h3 u (by simp) hb
      have hilt : i < ret.length := by
        rw [h2]
        exact hi
      obtain ⟨ret2, hr⟩ := ih (i + 1) (ret.set i (b64Encode bs)) missing
        (by simp only [List.length_cons] at h1; omega)
        (by rw [List.length_set]; exact h2)
        (fun v hv hvb => h3 v (by simp [hv]) hvb)
      refine ⟨ret2, ?_⟩
      unfold fetchLoop
      rw [if_neg hb]
      simp only [hp, hs, List.length_cons, List.length_nil, Nat.zero_add, ne_eq,
        eq_self_iff_true, not_true_eq_false, if_false, List.getElem?_cons_zero]
      rw [if_pos hilt, hdrop, missingOf_cons_nonempty _ _ _ _ hb, hr]

/-- C7: FetchKeybasePubkeys drops every entry without the keybase: marker
without error (the outcome depends only on the retained usernames, and an
empty retained list returns an empty result with no error), and it is
all-or-nothing over retained users: with one response entry per retained
user, all healthy bundles parsing cleanly, and at least one user with an
empty primary bundle, it returns the single collected error naming exactly
the missing users, never a partial key list. -/
theorem c7_fetch_keybase (env : FetchEnv) (input : List String) :
    (env.clientOk = true → input.filterMap kbStrip = [] →
      FetchKeybasePubkeys env input = GoRes.ok []) ∧
    (∀ input2, env.clientOk = true → input ≠ [] → input2 ≠ [] →
      input.filterMap kbStrip = input2.filterMap kbStrip →
      FetchKeybasePubkeys env input = FetchKeybasePubkeys env input2) ∧
    (∀ out, env.clientOk = true → env.httpRes = none → env.jsonRes = Except.ok out →
      out.statusName = "OK" → out.them.length = (input.filterMap kbStrip).length →
      (∀ u ∈ out.them, u.bundle ≠ [] →
        ∃ ent bs, env.parse u.bundle = Except.ok [some ent] ∧ ent.serializeRes = Except.ok bs) →
      missingOf (input.filterMap kbStrip) out.them ≠ [] →
      FetchKeybasePubkeys env input =
        GoRes.err ("unable to fetch keys for user(s) " ++
          String.intercalate (",") (missingOf (input.filterMap kbStrip) out.them) ++
          " from keybase")) := by
  refine ⟨?_, ?_, ?_⟩
  · intro hco hfm
    unfold FetchKeybasePubkeys
    by_cases hin : input = []
    · simp [hco, hin]
    · simp [hco, hin, hfm]
  · intro input2 hco hin hin2 h12
    unfold FetchKeybasePubkeys
    simp only [hco, Bool.true_eq_false, if_false, hin, hin2, ite_false, h12]
  · intro out hco hhttp hjson hstat hlen hhealthy hmiss
    by_cases hin : input = []
    · rw [hin] at hmiss
      simp [missingOf_nil_left] at hmiss
    · unfold FetchKeybasePubkeys
      cases hfm : input.filterMap kbStrip with
      | nil =>
        rw [hfm] at hmiss
        simp [missingOf_nil_left] at hmiss
      | cons u0 urest =>
        rw [hfm] at hlen hmiss
        simp only [hco, Bool.true_eq_false, if_false, hin, ite_false, hfm, hhttp, hjson, hstat,
          ne_eq, eq_self_iff_true, not_true_eq_false]
        obtain ⟨ret2, hloop⟩ := fetchLoop_healthy env.parse (u0 :: urest) out.them 0
          (List.replicate (u0 :: urest).length []) []
          (by omega)
          (by rw [List.length_replicate])
          hhealthy
        rw [List.drop_zero, List.nil_append] at hloop
        simp only [hloop]
        rw [if_neg hmiss]

/-- C7 witness: the theorem applied to the concrete environment in which
alice has an empty bundle and bob a healthy one, with one non-keybase
entry in the input that is dropped; and to an input whose every entry is
dropped, which yields an empty result with no error. -/
theorem c7_fetch_keybase_witness :
    FetchKeybasePubkeys envC7 inputC7 =
      GoRes.err ("unable to fetch keys for user(s) alice from keybase") ∧
    FetchKeybasePubkeys envC7 [("x"), ("y")] = GoRes.ok [] := by
  constructor
  · have h := (c7_fetch_keybase envC7 inputC7).2.2 ⟨"OK", [⟨[]⟩, ⟨[66]⟩]⟩ rfl rfl rfl rfl
      (by rfl)
      (by
        intro u hu hb
        simp [envC7] at hu
        cases hu with
        | inl h0 =>
          rw [h0] at hb
          simp at hb
        | inr h0 =>
          exact ⟨entC7, [1, 2], rfl, rfl⟩)
      (by decide)
    exact h.trans (by rfl)
  · exact (c7_fetch_keybase envC7 [("x"), ("y")]).1 rfl rfl
